import Mathlib

/-!
Shallow embedding of the hybrid retrieval pipeline of the wowBOT repository
(`services/retrieval_service.py` and `services/openai_service.py`).

Python strings are modelled as `List Char`; Python `list`s as Lean `List`s;
Python `dict` rows from the spreadsheet source as association lists
`List (List Char × List Char)` (the pipeline only ever applies `str(...)`,
`.lower()` and substring tests to the values, so values are modelled as the
strings they print as).  A Python function that can raise an exception which
propagates to the caller is modelled with `Option` (`none` = the exception
escapes).  External completion calls are modelled by passing the provider's
response in as an argument (`none` = the call raised); the number of calls a
code path performs is part of the embedded result where a claim talks about
call counts.
-/

/-- Membership in Python's `str.strip()` default whitespace set
(ASCII part: space, tab, newline, carriage return, vertical tab, form feed). -/
def isPySpace (c : Char) : Bool :=
  c = ' ' || c = '\t' || c = '\n' || c = '\x0d' || c = '\x0b' || c = '\x0c'

/-- Python regex word character `\w` (ASCII part): letters, digits, underscore. -/
def isWordChar (c : Char) : Bool :=
  c.isAlphanum || c = '_'

/-- Python `str.lower()` (ASCII part), character by character. -/
def lowerS (s : List Char) : List Char :=
  s.map Char.toLower

/-- Python `str.startswith`: `isPre n h` means `n` is a leading segment of `h`. -/
def isPre : List Char → List Char → Bool
  | [], _ => true
  | _ :: _, [] => false
  | a :: as, b :: bs => decide (a = b) && isPre as bs

/-- Python's substring test `needle in hay`. -/
def containsSub : List Char → List Char → Bool
  | [], needle => needle.isEmpty
  | c :: t, needle => isPre needle (c :: t) || containsSub t needle

/-- Python `str.strip()`, left half: drop leading whitespace. -/
def pyStripL (l : List Char) : List Char :=
  l.dropWhile isPySpace

/-- Python `str.strip()`, right half: drop trailing whitespace. -/
def pyStripR (l : List Char) : List Char :=
  (l.reverse.dropWhile isPySpace).reverse

/-- Python `str.strip()` with no argument: trim whitespace at both ends. -/
def pyStrip (l : List Char) : List Char :=
  pyStripR (pyStripL l)

/-- Python `re.findall(r'\w+', s)`: the maximal runs of word characters of `s`,
in order. -/
def pyWords : List Char → List (List Char)
  | [] => []
  | c :: rest =>
    if isWordChar c then
      (c :: rest.takeWhile isWordChar) :: pyWords (rest.dropWhile isWordChar)
    else
      pyWords rest
termination_by l => l.length
decreasing_by
  all_goals simp only [List.length_cons]
  · have h := (rest.dropWhile_sublist isWordChar).length_le
    omega
  · omega

/-- Python `'sep'.join(parts)`. -/
def joinSep (sep : List Char) : List (List Char) → List Char
  | [] => []
  | [x] => x
  | x :: y :: xs => x ++ sep ++ joinSep sep (y :: xs)

/-- The two-character separator `"\n\n"` used throughout the pipeline. -/
def nl2 : List Char := "\n\n".toList

/-!  § Retriever ordinal resolution (`retrieve_similar_chunks`, line 63).

The source line is
  `retrieved_chunks = [chunks[i] for i in indices[0] if i < len(chunks)]`
inside a `try` whose handler re-raises.  `indices[0]` is the list of int64
ordinals returned by the FAISS search (FAISS pads with `-1` when fewer than
`top_k` results exist).  Python list indexing accepts negative positions
(counting from the end) and raises `IndexError` below `-len`; a raised
`IndexError` escapes `retrieve_similar_chunks` (modelled as `none`). -/

/-- Python `chunks[i]` for an `int` index `i`: non-negative indexes from the
front, negative indexes from the end, `none` when the access raises. -/
def pyGetElem (chunks : List (List Char)) (i : Int) : Option (List Char) :=
  if 0 ≤ i then chunks[i.toNat]?
  else if 0 ≤ i + chunks.length then chunks[(i + chunks.length).toNat]?
  else none

/-- Run a fallible lookup over a whole list, failing when any element fails
(the comprehension raising on any element). -/
def resolveList (g : Int → Option (List Char)) : List Int → Option (List (List Char))
  | [] => some []
  | i :: rest =>
    match g i, resolveList g rest with
    | some c, some cs => some (c :: cs)
    | _, _ => none

/-- The ordinal-to-passage resolution step of `retrieve_similar_chunks`
(line 63): keep the ordinals passing the `i < len(chunks)` guard, then index
the passage list with each survivor; `none` models the comprehension raising. -/
def resolve_ordinals (idxs : List Int) (chunks : List (List Char)) :
    Option (List (List Char)) :=
  resolveList (pyGetElem chunks) (idxs.filter (fun i => decide (i < (chunks.length : Int))))

/-- Modelled from the spec's words for comparison with `resolve_ordinals`:
resolve only the in-range ordinals (`0 ≤ i < len`), dropping every other one. -/
def spec_resolve_in_range (idxs : List Int) (chunks : List (List Char)) :
    List (List Char) :=
  (idxs.filter (fun i => decide (0 ≤ i) && decide (i < (chunks.length : Int)))).filterMap
    (fun i => chunks[i.toNat]?)

/-!  § Structured-record gate and matcher
(`_is_pr_query`, `_find_relevant_pr_rows`). -/

/-- `_is_pr_query` (lines 72–75): the gate that decides whether the
spreadsheet fetch and row matching run at all. -/
def is_pr_query (query : List Char) : Bool :=
  let lowered := lowerS query
  containsSub lowered ("pr ".toList) || isPre ("pr".toList) lowered ||
    containsSub lowered ("purchase request".toList) ||
    containsSub lowered ("purchase requisition".toList)

/-- One attempt of the regex `pr\s*#?\s*(\d+)` anchored at the head of the
input: literal `pr`, greedy whitespace, optional `#`, greedy whitespace, then
one or more digits (the capture group). -/
def matchPrAt : List Char → Option (List Char)
  | 'p' :: 'r' :: rest =>
    let r1 := rest.dropWhile isPySpace
    let r2 := match r1 with
      | '#' :: t => t
      | _ => r1
    let r3 := r2.dropWhile isPySpace
    let digits := r3.takeWhile Char.isDigit
    if digits.isEmpty then none else some digits
  | _ => none

/-- Python `re.search(r"pr\s*#?\s*(\d+)", s)` returning the digits of capture
group 1 at the leftmost matching position. -/
def pr_number_search : List Char → Option (List Char)
  | [] => none
  | c :: rest =>
    match matchPrAt (c :: rest) with
    | some digits => some digits
    | none => pr_number_search rest

/-- Python `row.get(key, "")` on an association-list row. -/
def rowGet (row : List (List Char × List Char)) (key : List Char) : List Char :=
  match row.find? (fun kv => decide (kv.1 = key)) with
  | some kv => kv.2
  | none => []

/-- `' '.join(str(v).lower() for v in row.values())`. -/
def rowTextOf (row : List (List Char × List Char)) : List Char :=
  joinSep [' '] (row.map (fun kv => lowerS kv.2))

/-- The sheet column name `"Request #"` used by the PR-number branch. -/
def requestKey : List Char := "Request #".toList

/-- `_find_relevant_pr_rows` (lines 77–97): explicit PR-number branch, then
all-keywords (AND) match, then any-keyword (OR) match, then the `[-5:]`
fallback. -/
def find_relevant_pr_rows (query : List Char)
    (sheet_data : List (List (List Char × List Char))) :
    List (List (List Char × List Char)) :=
  match pr_number_search (lowerS query) with
  | some pr_number =>
    (sheet_data.filter (fun row => decide (pyStrip (rowGet row requestKey) = pr_number))).take 10
  | none =>
    let keywords := (pyWords (lowerS query)).filter (fun kw => decide (2 < kw.length))
    let andRows := sheet_data.filter
      (fun row => keywords.all (fun kw => containsSub (rowTextOf row) kw))
    let relevant_rows :=
      if andRows.isEmpty then
        sheet_data.filter (fun row => keywords.any (fun kw => containsSub (rowTextOf row) kw))
      else andRows
    if relevant_rows.isEmpty then
      sheet_data.drop (sheet_data.length - 5)
    else
      relevant_rows.take 10

/-!  § Category Router (`process_query` lines 147–160) and model-tier parse
(`classify_document_type`, `openai_service.py` lines 58–75). -/

/-- The fixed `link_keywords` list of `process_query` (lines 148–152). -/
def link_keywords : List (List Char) :=
  ["link".toList, "form".toList, "where can i find".toList, "i need the".toList,
   "how do i access".toList, "give me the".toList, "pr form".toList, "oracle".toList,
   "catalogue".toList, "item numbers".toList, "waiver of competition".toList,
   "woc".toList, "bpa list".toList, "catalog".toList, "procurement tools".toList,
   "resources".toList, "submission form".toList, "portal".toList, "system".toList]

/-- `has_link_keywords` (lines 153–154): any keyword occurring in the
lowercased raw query. -/
def has_link_keywords (query : List Char) : Bool :=
  link_keywords.any (fun keyword => containsSub (lowerS query) keyword)

/-- The fixed category set of the deployment (the keys of `FAISS_INDEXES`
in `config.py`). -/
def categories : List (List Char) :=
  ["sop".toList, "vmc".toList, "vra".toList, "pengadaan".toList, "links".toList]

/-- Response parse of `classify_document_type` (lines 68–75): case-insensitive
substring checks for `sop`, `pengadaan`, `vra` in that order, else `vmc`. -/
def classify_document_type (result : List Char) : List Char :=
  if containsSub (lowerS result) ("sop".toList) then "sop".toList
  else if containsSub (lowerS result) ("pengadaan".toList) then "pengadaan".toList
  else if containsSub (lowerS result) ("vra".toList) then "vra".toList
  else "vmc".toList

/-- The two-tier router of `process_query` (lines 153–159).  The second
component counts classification completion calls; `classifierResponse = none`
models the classifier call raising (which `process_query` propagates). -/
def category_router (query : List Char) (classifierResponse : Option (List Char)) :
    Option (List Char × Nat) :=
  if has_link_keywords query then some ("links".toList, 0)
  else
    match classifierResponse with
    | none => none
    | some r => some (classify_document_type r, 1)

/-!  § Context Composer (`process_query` lines 192–204). -/

/-- Label prefixed to the FAQ block (line 195). -/
def faqLabel : List Char := "FAQ Information (Direct Answer):\n".toList

/-- Label prefixed to the policy block when a FAQ block exists (line 197). -/
def addLabel : List Char := "Additional Policy Context:\n".toList

/-- Label prefixed to the policy block when no FAQ block exists (line 199). -/
def polLabel : List Char := "Policy Information:\n".toList

/-- The composer of `process_query` (lines 192–204): FAQ block first when
non-empty, then the policy block under the matching label, then the
structured-record block verbatim, and a final `strip()`. -/
def compose_full_context (faq policy sheet : List Char) : List Char :=
  let fc :=
    if !faq.isEmpty then
      (faqLabel ++ faq ++ nl2) ++ (if !policy.isEmpty then addLabel ++ policy ++ nl2 else [])
    else if !policy.isEmpty then polLabel ++ policy ++ nl2
    else []
  let fc := if !sheet.isEmpty then fc ++ sheet else fc
  pyStrip fc

/-!  § Relevance Reranker (`rerank_chunks`, `openai_service.py` lines 85–116).

The per-candidate completion responses are an argument `resp : Nat → Option
(List Char)` (`resp i = none` models the `i`-th scoring call raising, which
line 106 absorbs as score 0).  Python's `list.sort(key=..., reverse=True)` is
a stable sort by descending key; it is modelled by `List.insertionSort` with
the descending-score relation, which is stable in the same first-wins sense. -/

/-- Digit value of an ASCII digit character. -/
def digitVal (c : Char) : Nat := c.toNat - 48

/-- Boundary test after a candidate match: end of input or a non-word char. -/
def endsBoundary : List Char → Bool
  | [] => true
  | e :: _ => !(isWordChar e)

/-- Python `re.search(r"\b([1-9]|10)\b", s)` returning the matched value:
scan left to right; at each word boundary try a single digit `1`–`9`, then
`10`, each followed by a word boundary.  The running `Bool` says whether the
previous character was a word character. -/
def findScore : Bool → List Char → Option Nat
  | _, [] => none
  | pb, c :: rest =>
    if !pb && ('1' ≤ c && c ≤ '9') then
      match rest with
      | [] => some (digitVal c)
      | d :: rest2 =>
        if !(isWordChar d) then some (digitVal c)
        else if c = '1' && d = '0' && endsBoundary rest2 then some 10
        else findScore (isWordChar c) rest
    else findScore (isWordChar c) rest

/-- Score assigned to one candidate (lines 102–108): value of the first
integer 1–10 in the response, 0 when unparseable, 0 when the call raised. -/
def scoreOf (response : Option (List Char)) : Nat :=
  match response with
  | none => 0
  | some text => (findScore false text).getD 0

/-- The `(score, chunk)` list built by the loop of lines 89–110, in original
retrieval order. -/
def scored_chunks (resp : Nat → Option (List Char)) (chunks : List (List Char)) :
    List (Nat × List Char) :=
  chunks.enum.map (fun p => (scoreOf (resp p.1), p.2))

/-- Descending-score order used by `scored_chunks.sort(key=..., reverse=True)`. -/
def rdesc : Nat × List Char → Nat × List Char → Prop :=
  fun a b => b.1 ≤ a.1

instance : DecidableRel rdesc :=
  fun a b => inferInstanceAs (Decidable (b.1 ≤ a.1))

instance : IsTotal (Nat × List Char) rdesc :=
  ⟨fun a b => Nat.le_total b.1 a.1⟩

instance : IsTrans (Nat × List Char) rdesc :=
  ⟨fun _ _ _ hab hbc => Nat.le_trans hbc hab⟩

/-- The sorted-and-truncated `(score, chunk)` list (lines 113–114 before the
projection to chunks). -/
def rerank_scored (resp : Nat → Option (List Char)) (chunks : List (List Char))
    (n : Nat) : List (Nat × List Char) :=
  (List.insertionSort rdesc (scored_chunks resp chunks)).take n

/-- `top_chunks` of line 114: the top-`n` chunks, most relevant first. -/
def rerank_chunks_list (resp : Nat → Option (List Char)) (chunks : List (List Char))
    (n : Nat) : List (List Char) :=
  (rerank_scored resp chunks n).map Prod.snd

/-- `rerank_chunks` (lines 85–116): the joined text together with the number
of completion calls the loop performs (one per candidate, line 103). -/
def rerank_chunks_text (resp : Nat → Option (List Char)) (chunks : List (List Char))
    (n : Nat) : List Char × Nat :=
  (joinSep nl2 (rerank_chunks_list resp chunks n), chunks.length)

/-!  § Policy-Relevance Assessor (`_assess_policy_relevance`, lines 99–137).

The score is a Python float; it is modelled as an exact rational.  (Python's
`float()` also accepts the non-finite literals `inf`/`nan`; they are outside
the rational model, and under the source's `max(0.0, min(1.0, score))` with
this argument order they too land on `1.0`/`1.0`/`0.0`, inside `[0, 1]`.) -/

/-- Leading digit run of a string together with the rest. -/
def readDigits (l : List Char) : List Char × List Char :=
  (l.takeWhile Char.isDigit, l.dropWhile Char.isDigit)

/-- Numeric value of a digit run. -/
def digitsVal (l : List Char) : Nat :=
  l.foldl (fun n c => 10 * n + digitVal c) 0

/-- Optional exponent tail of a Python float literal: empty, or
`e`/`E`, an optional sign and one or more digits consuming the rest. -/
def parseExpTail (mant : ℚ) : List Char → Option ℚ
  | [] => some mant
  | c :: t =>
    if c = 'e' || c = 'E' then
      let (esign, t1) : Int × List Char :=
        match t with
        | '+' :: u => (1, u)
        | '-' :: u => (-1, u)
        | u => (1, u)
      let (ed, t2) := readDigits t1
      if ed.isEmpty || !t2.isEmpty then none
      else some (mant * (10 : ℚ) ^ (esign * (digitsVal ed : Int)))
    else none

/-- Python `float(s)` on an already-stripped string, for finite decimal and
scientific literals: optional sign, digits with optional fraction, optional
exponent; `none` when the parse fails (`ValueError`). -/
def parseFloat (s : List Char) : Option ℚ :=
  let (sign, s1) : ℚ × List Char :=
    match s with
    | '+' :: t => (1, t)
    | '-' :: t => (-1, t)
    | t => (1, t)
  let (ip, s2) := readDigits s1
  match s2 with
  | '.' :: t =>
    let (fp, s3) := readDigits t
    if ip.isEmpty && fp.isEmpty then none
    else
      (parseExpTail ((digitsVal ip : ℚ) + (digitsVal fp : ℚ) / (10 : ℚ) ^ fp.length) s3).map
        (fun v => sign * v)
  | _ =>
    if ip.isEmpty then none
    else (parseExpTail (digitsVal ip : ℚ) s2).map (fun v => sign * v)

/-- `_assess_policy_relevance` (lines 99–137): score together with the number
of completion calls made.  `callResult = none` models `chat_completion`
raising (outer `except`, line 135); an unparseable response is the inner
`except ValueError` (line 132); a parsed score is clamped by
`max(0.0, min(1.0, score))` (line 131). -/
def assess_policy_relevance (policy_chunks : List (List Char))
    (callResult : Option (List Char)) : ℚ × Nat :=
  if policy_chunks.isEmpty then (0, 0)
  else
    match callResult with
    | none => (0, 1)
    | some result =>
      match parseFloat (pyStrip result) with
      | some score => (max 0 (min 1 score), 1)
      | none => (1 / 2, 1)

/-!  § FAQ Finder keyword filter (`_search_faq_content`, lines 222–236). -/

/-- `has_faq_header` (lines 226–228) on the lowercased chunk. -/
def has_faq_header (chunk_lower : List Char) : Bool :=
  ["frequently asked questions".toList, "## frequently asked questions".toList].any
    (fun pat => containsSub chunk_lower pat)

/-- `has_qa_pattern` (lines 230–232) on the lowercased chunk. -/
def has_qa_pattern (chunk_lower : List Char) : Bool :=
  ["**q:".toList, "**a:".toList, "q:".toList, "a:".toList].any
    (fun pat => containsSub chunk_lower pat)

/-- The per-chunk FAQ test of lines 222–235: FAQ header or Q/A marker in the
lowercased chunk. -/
def faq_chunk_test (chunk : List Char) : Bool :=
  has_faq_header (lowerS chunk) || has_qa_pattern (lowerS chunk)

/-- The keyword-filter stage of `_search_faq_content`: the retrieved chunks
that pass `faq_chunk_test`, in order. -/
def faq_candidates (chunks : List (List Char)) : List (List Char) :=
  chunks.filter faq_chunk_test

/-!  § Generic lemmas about the string model. -/

/-- Characterization of `isPre` as leading-segment decomposition. -/
theorem isPre_iff (n h : List Char) : isPre n h = true ↔ ∃ t, h = n ++ t := by
  induction n generalizing h with
  | nil => simp [isPre]
  | cons a as ih =>
    cases h with
    | nil => simp [isPre]
    | cons b bs =>
      simp only [isPre, Bool.and_eq_true, decide_eq_true_eq, ih, List.cons_append,
        List.cons.injEq]
      constructor
      · rintro ⟨rfl, t, rfl⟩
        exact ⟨t, rfl, rfl⟩
      · rintro ⟨t, rfl, rfl⟩
        exact ⟨rfl, t, rfl⟩

/-- Characterization of the substring test as a decomposition. -/
theorem containsSub_iff (h n : List Char) :
    containsSub h n = true ↔ ∃ a b, h = a ++ n ++ b := by
  induction h with
  | nil =>
    constructor
    · intro he
      have hn : n = [] := by simpa [containsSub, List.isEmpty_iff] using he
      exact ⟨[], [], by simp [hn]⟩
    · rintro ⟨a, b, hab⟩
      have hn : n = [] := (List.append_eq_nil.mp (List.append_eq_nil.mp hab.symm).1).2
      simp [containsSub, hn]
  | cons c t ih =>
    simp only [containsSub, Bool.or_eq_true, ih, isPre_iff]
    constructor
    · rintro (⟨s, hs⟩ | ⟨a, b, rfl⟩)
      · exact ⟨[], s, by simpa using hs⟩
      · exact ⟨c :: a, b, rfl⟩
    · rintro ⟨a, b, hab⟩
      cases a with
      | nil => exact Or.inl ⟨b, by simpa using hab⟩
      | cons x xs =>
        simp only [List.cons_append, List.cons.injEq] at hab
        exact Or.inr ⟨xs, b, hab.2⟩

/-- A substring hit for a padded pattern is a hit for the inner pattern. -/
theorem containsSub_of_wrap {h x n y : List Char}
    (hc : containsSub h (x ++ n ++ y) = true) : containsSub h n = true := by
  rcases (containsSub_iff _ _).1 hc with ⟨a, b, rfl⟩
  refine (containsSub_iff _ _).2 ⟨a ++ x, y ++ b, by simp⟩

/-- Substring hits are preserved by character-wise mapping. -/
theorem containsSub_map (f : Char → Char) {h n : List Char}
    (hc : containsSub h n = true) : containsSub (h.map f) (n.map f) = true := by
  rcases (containsSub_iff _ _).1 hc with ⟨a, b, rfl⟩
  refine (containsSub_iff _ _).2 ⟨a.map f, b.map f, by simp⟩

/-!  § C3, C4: Category Router. -/

/-- C3: every query containing one of the fixed links keywords
(case-insensitive substring match) is routed to the `links` category with
zero classification completion calls, whatever the classifier would have
answered (including a raising classifier call). -/
theorem c3_links_keyword_route (query : List Char) (resp : Option (List Char))
    (h : has_link_keywords query = true) :
    category_router query resp = some ("links".toList, 0) := by
  simp [category_router, h]

/-- Witness for C3 at the concrete query `"where is the PR form"` with a
raising classifier. -/
theorem c3_links_keyword_route_witness :
    category_router ("where is the PR form".toList) none = some ("links".toList, 0) :=
  c3_links_keyword_route _ _ (by decide)

/-- C4 counterexample: `links` is a category of the fixed deployment set
(a key of `FAISS_INDEXES`, and an output the classifier prompt asks for),
yet a completion response naming exactly it routes to the fallback `vmc`,
not to `links`. -/
theorem c4_counterexample :
    ("links".toList ∈ categories) ∧
    classify_document_type ("links".toList) = "vmc".toList ∧
    ¬ classify_document_type ("links".toList) = "links".toList := by
  decide

/-- C4 (amended): the model-tier parse is a case-insensitive substring match
checked in the fixed order `sop`, `pengadaan`, `vra`, first match winning,
with fallback `vmc` when none matches; every output is one of these four,
and a response naming `sop`, `pengadaan`, `vra` or `vmc` routes to that
category — but a response naming `links` cannot be routed to `links`. -/
theorem c4_classifier_parse :
    (∀ r : List Char, containsSub (lowerS r) ("sop".toList) = true →
        classify_document_type r = "sop".toList) ∧
    (∀ r : List Char, containsSub (lowerS r) ("sop".toList) = false →
        containsSub (lowerS r) ("pengadaan".toList) = true →
        classify_document_type r = "pengadaan".toList) ∧
    (∀ r : List Char, containsSub (lowerS r) ("sop".toList) = false →
        containsSub (lowerS r) ("pengadaan".toList) = false →
        containsSub (lowerS r) ("vra".toList) = true →
        classify_document_type r = "vra".toList) ∧
    (∀ r : List Char, containsSub (lowerS r) ("sop".toList) = false →
        containsSub (lowerS r) ("pengadaan".toList) = false →
        containsSub (lowerS r) ("vra".toList) = false →
        classify_document_type r = "vmc".toList) ∧
    (∀ r : List Char, classify_document_type r = "sop".toList ∨
        classify_document_type r = "pengadaan".toList ∨
        classify_document_type r = "vra".toList ∨
        classify_document_type r = "vmc".toList) ∧
    classify_document_type ("sop".toList) = "sop".toList ∧
    classify_document_type ("Pengadaan".toList) = "pengadaan".toList ∧
    classify_document_type ("VRA".toList) = "vra".toList ∧
    classify_document_type ("vmc".toList) = "vmc".toList := by
  refine ⟨fun r h => by simp only [classify_document_type]; rw [h]; simp,
          fun r h1 h2 => by simp only [classify_document_type]; rw [h1, h2]; simp,
          fun r h1 h2 h3 => by simp only [classify_document_type]; rw [h1, h2, h3]; simp,
          fun r h1 h2 h3 => by simp only [classify_document_type]; rw [h1, h2, h3]; simp,
          fun r => ?_, by decide, by decide, by decide, by decide⟩
  unfold classify_document_type
  split_ifs <;> simp

/-- Witness for C4 (amended) at concrete classifier responses. -/
theorem c4_classifier_parse_witness :
    classify_document_type ("It is SOP related".toList) = "sop".toList ∧
    classify_document_type ("category: pengadaan".toList) = "pengadaan".toList ∧
    classify_document_type ("unclear".toList) = "vmc".toList :=
  ⟨c4_classifier_parse.1 _ (by decide),
   c4_classifier_parse.2.1 _ (by decide) (by decide),
   c4_classifier_parse.2.2.2.1 _ (by decide) (by decide) (by decide)⟩

/-!  § C7: empty candidate lists. -/

/-- C7: on an empty candidate list the reranker returns the empty string and
the assessor returns 0.0, both with zero completion calls (and neither makes
any embedding call anywhere: no embedding primitive occurs in either). -/
theorem c7_empty_candidates (resp : Nat → Option (List Char)) (n : Nat)
    (callResult : Option (List Char)) :
    rerank_chunks_text resp [] n = ([], 0) ∧
    assess_policy_relevance [] callResult = (0, 0) := by
  refine ⟨?_, rfl⟩
  simp [rerank_chunks_text, rerank_chunks_list, rerank_scored, scored_chunks, joinSep,
    List.insertionSort]

/-!  § C9: FAQ keyword filter. -/

/-- The per-chunk FAQ test, with the redundant patterns collapsed:
`"## frequently asked questions"` implies `"frequently asked questions"`,
and `"**q:"`/`"**a:"` imply `"q:"`/`"a:"`. -/
theorem faq_chunk_test_iff (chunk : List Char) :
    faq_chunk_test chunk = true ↔
      (containsSub (lowerS chunk) ("frequently asked questions".toList) = true ∨
       containsSub (lowerS chunk) ("q:".toList) = true ∨
       containsSub (lowerS chunk) ("a:".toList) = true) := by
  have e1 : "## ".toList ++ "frequently asked questions".toList ++ ([] : List Char) =
      "## frequently asked questions".toList := by decide
  have e2 : "**".toList ++ "q:".toList ++ ([] : List Char) = "**q:".toList := by decide
  have e3 : "**".toList ++ "a:".toList ++ ([] : List Char) = "**a:".toList := by decide
  unfold faq_chunk_test has_faq_header has_qa_pattern
  simp only [List.any_cons, List.any_nil, Bool.or_eq_true, Bool.or_false]
  constructor
  · rintro ((h | h) | (h | h | h | h))
    · exact Or.inl h
    · exact Or.inl (containsSub_of_wrap (by rw [e1]; exact h))
    · exact Or.inr (Or.inl (containsSub_of_wrap (by rw [e2]; exact h)))
    · exact Or.inr (Or.inr (containsSub_of_wrap (by rw [e3]; exact h)))
    · exact Or.inr (Or.inl h)
    · exact Or.inr (Or.inr h)
  · rintro (h | h | h)
    · exact Or.inl (Or.inl h)
    · exact Or.inr (Or.inr (Or.inr (Or.inl h)))
    · exact Or.inr (Or.inr (Or.inr (Or.inr h)))

/-- C9: a retrieved chunk enters the FAQ candidate set iff it contains
(case-insensitively) the FAQ section header or a Q/A marker; in particular a
chunk containing `"**Q:"` always enters the candidate set. -/
theorem c9_faq_filter (chunks : List (List Char)) (chunk : List Char) :
    (chunk ∈ faq_candidates chunks ↔
      chunk ∈ chunks ∧
        (containsSub (lowerS chunk) ("frequently asked questions".toList) = true ∨
         containsSub (lowerS chunk) ("q:".toList) = true ∨
         containsSub (lowerS chunk) ("a:".toList) = true)) ∧
    (chunk ∈ chunks → containsSub chunk ("**Q:".toList) = true →
      chunk ∈ faq_candidates chunks) := by
  constructor
  · rw [faq_candidates, List.mem_filter, faq_chunk_test_iff]
  · intro hm hq
    rw [faq_candidates, List.mem_filter]
    refine ⟨hm, (faq_chunk_test_iff chunk).2 (Or.inr (Or.inl ?_))⟩
    have hmap := containsSub_map Char.toLower hq
    have e : ("**Q:".toList).map Char.toLower = "**q:".toList := by decide
    rw [e] at hmap
    have e2 : "**".toList ++ "q:".toList ++ ([] : List Char) = "**q:".toList := by decide
    exact containsSub_of_wrap (x := "**".toList) (y := []) (by rw [e2]; exact hmap)

/-- Witness for C9: a chunk containing `"**Q:"` lands in the candidate set. -/
theorem c9_faq_filter_witness :
    "**Q: How do I submit?".toList ∈
      faq_candidates ["intro".toList, "**Q: How do I submit?".toList] :=
  (c9_faq_filter _ _).2 (by decide) (by decide)

/-!  § C10: breadth of the structured-record gate. -/

/-- C10: the structured-record gate fires exactly when the lowercased query
starts with `pr`, or contains `"pr "`, `"purchase request"` or
`"purchase requisition"`; in particular ordinary words beginning with `pr`
(procurement, price, printer) trigger the spreadsheet path. -/
theorem c10_pr_gate_breadth :
    (∀ query : List Char,
      is_pr_query query = true ↔
        (isPre ("pr".toList) (lowerS query) = true ∨
         containsSub (lowerS query) ("pr ".toList) = true ∨
         containsSub (lowerS query) ("purchase request".toList) = true ∨
         containsSub (lowerS query) ("purchase requisition".toList) = true)) ∧
    is_pr_query ("procurement deadline".toList) = true ∧
    is_pr_query ("price of laptops".toList) = true ∧
    is_pr_query ("printer not working".toList) = true ∧
    is_pr_query ("Procurement tools overview".toList) = true := by
  refine ⟨fun query => ?_, by decide, by decide, by decide, by decide⟩
  simp only [is_pr_query, Bool.or_eq_true]
  tauto

/-!  § C1: Retriever ordinal resolution. -/

/-- C1 counterexample: the ordinal `-1` (FAISS's padding value for a missing
result) is out of range of the passage list, yet it passes the
`i < len(chunks)` guard and resolves — via Python negative indexing — to the
last passage instead of being dropped: the code returns `["beta"]` where a
full bound check would return `[]`. -/
theorem c1_counterexample :
    resolve_ordinals [(-1 : Int)] ["alpha".toList, "beta".toList] =
      some ["beta".toList] ∧
    spec_resolve_in_range [(-1 : Int)] ["alpha".toList, "beta".toList] = [] ∧
    (-1 : Int) < 0 := by
  decide

/-- C1 (amended): ordinals `≥ len(chunks)` are dropped and never contribute a
passage; the guard does not exclude negative ordinals (which resolve from the
end of the list, or raise below `-len`).  Whenever all returned ordinals are
non-negative, resolution never raises and returns exactly the passages at
in-range ordinals, in order. -/
theorem c1_nonneg_resolution (idxs : List Int) (chunks : List (List Char))
    (h : ∀ i ∈ idxs, 0 ≤ i) :
    resolve_ordinals idxs chunks = some (spec_resolve_in_range idxs chunks) := by
  induction idxs with
  | nil => rfl
  | cons i rest ih =>
    have hi : 0 ≤ i := h i (by simp)
    have hrest := ih (fun j hj => h j (by simp [hj]))
    rw [resolve_ordinals] at hrest ⊢
    rw [spec_resolve_in_range] at hrest ⊢
    by_cases hlt : i < (chunks.length : Int)
    · have hnat : i.toNat < chunks.length := by omega
      obtain ⟨c, hc⟩ : ∃ c, chunks[i.toNat]? = some c :=
        ⟨chunks[i.toNat], List.getElem?_eq_getElem hnat⟩
      have hg : pyGetElem chunks i = some c := by simp [pyGetElem, hi, hc]
      simp only [List.filter_cons, hlt, hi, decide_True, Bool.and_self, if_true,
        List.filterMap_cons, resolveList, hg, hrest, hc]
    · simp only [List.filter_cons, hlt, decide_False, Bool.and_false, if_false]
      simpa using hrest

/-- Witness for C1 (amended): with non-negative ordinals `[0, 5]` over two
passages, the out-of-range `5` is dropped and only passage 0 is returned. -/
theorem c1_nonneg_resolution_witness :
    resolve_ordinals [0, 5] ["alpha".toList, "beta".toList] =
      some (spec_resolve_in_range [0, 5] ["alpha".toList, "beta".toList]) ∧
    spec_resolve_in_range [0, 5] ["alpha".toList, "beta".toList] = ["alpha".toList] :=
  ⟨c1_nonneg_resolution _ _ (by decide), by decide⟩

/-!  § C2: Structured-Record Matcher. -/

/-- The common tail of `_find_relevant_pr_rows`: `relevant_rows[:10]` when
non-empty, else `sheet_data[-5:]` — never empty when `data` is non-empty. -/
theorem take10_or_last5_ne_nil {α : Type} (rr data : List α) (hd : data ≠ []) :
    (if rr.isEmpty then data.drop (data.length - 5) else rr.take 10) ≠ [] := by
  have hdl : 0 < data.length := List.length_pos.mpr hd
  split_ifs with h
  · intro hcon
    have hl := congrArg List.length hcon
    rw [List.length_drop, List.length_nil] at hl
    omega
  · have hrr : rr ≠ [] := by simpa [List.isEmpty_iff] using h
    have hrl : 0 < rr.length := List.length_pos.mpr hrr
    intro hcon
    have hl := congrArg List.length hcon
    rw [List.length_take, List.length_nil] at hl
    omega

/-- The common tail of `_find_relevant_pr_rows` has at most 10 rows. -/
theorem take10_or_last5_len_le {α : Type} (rr data : List α) :
    (if rr.isEmpty then data.drop (data.length - 5) else rr.take 10).length ≤ 10 := by
  split_ifs
  · rw [List.length_drop]; omega
  · rw [List.length_take]; omega

/-- C2 counterexample: the query `"pr #999"` carries an explicit
record-identifier pattern matching no row of the (non-empty) source table,
and the matcher returns the empty list — the last-5 fallback lives only on
the keyword path. -/
theorem c2_counterexample :
    find_relevant_pr_rows ("pr #999".toList) [[(requestKey, "1".toList)]] = [] ∧
    ([[(requestKey, "1".toList)]] : List (List (List Char × List Char))) ≠ [] := by
  decide

/-- C2 (amended): the matcher always returns at most 10 rows, and for every
query *without* an explicit PR-number pattern it never returns an empty list
on a non-empty source table (up to 10 keyword-matched rows, else the last 5
rows); a PR-number query returns only the exact `Request #` matches, which
may be empty. -/
theorem c2_matcher_fallback :
    (∀ (query : List Char) (sheet_data : List (List (List Char × List Char))),
      (find_relevant_pr_rows query sheet_data).length ≤ 10) ∧
    (∀ (query : List Char) (sheet_data : List (List (List Char × List Char))),
      sheet_data ≠ [] → pr_number_search (lowerS query) = none →
      find_relevant_pr_rows query sheet_data ≠ []) := by
  constructor
  · intro query sheet_data
    rw [find_relevant_pr_rows]
    cases hnum : pr_number_search (lowerS query) with
    | some d =>
      rw [List.length_take]
      omega
    | none =>
      dsimp only
      exact take10_or_last5_len_le _ _
  · intro query sheet_data hne hnum
    rw [find_relevant_pr_rows, hnum]
    dsimp only
    exact take10_or_last5_ne_nil _ _ hne

/-- Witness for C2 (amended) at a keyword query matching nothing: the
matcher answers with the last rows rather than an empty list. -/
theorem c2_matcher_fallback_witness :
    (find_relevant_pr_rows ("hello there".toList) [[(requestKey, "1".toList)]]).length ≤ 10 ∧
    find_relevant_pr_rows ("hello there".toList) [[(requestKey, "1".toList)]] ≠ [] :=
  ⟨c2_matcher_fallback.1 _ _, c2_matcher_fallback.2 _ _ (by decide) (by decide)⟩

/-!  § C8: Policy-Relevance Assessor range and defaults. -/

/-- C8: the assessor score is always in `[0, 1]`: a parsed response is
clamped by `max(0.0, min(1.0, score))`, an unparseable response yields the
neutral default `0.5`, and a failed completion call yields `0.0`. -/
theorem c8_assessor_range (policy_chunks : List (List Char))
    (callResult : Option (List Char)) :
    (0 ≤ (assess_policy_relevance policy_chunks callResult).1 ∧
     (assess_policy_relevance policy_chunks callResult).1 ≤ 1) ∧
    (policy_chunks ≠ [] → callResult = none →
      (assess_policy_relevance policy_chunks callResult).1 = 0) ∧
    (∀ t, policy_chunks ≠ [] → callResult = some t →
      parseFloat (pyStrip t) = none →
      (assess_policy_relevance policy_chunks callResult).1 = 1 / 2) ∧
    (∀ t q, policy_chunks ≠ [] → callResult = some t →
      parseFloat (pyStrip t) = some q →
      (assess_policy_relevance policy_chunks callResult).1 = max 0 (min 1 q)) := by
  refine ⟨?_, ?_, ?_, ?_⟩
  · unfold assess_policy_relevance
    split_ifs with hp
    · norm_num
    · cases callResult with
      | none => norm_num
      | some t =>
        cases hpf : parseFloat (pyStrip t) with
        | none => norm_num [hpf]
        | some q =>
          simp only [hpf]
          refine ⟨le_max_left 0 _, max_le (by norm_num) (min_le_left 1 q)⟩
  · intro hne hcr
    subst hcr
    simp [assess_policy_relevance, hne]
  · intro t hne hcr hpf
    subst hcr
    simp [assess_policy_relevance, hne, hpf]
  · intro t q hne hcr hpf
    subst hcr
    simp [assess_policy_relevance, hne, hpf]

/-- Witness for C8 at concrete responses: a raising call scores 0, an
unparseable response scores 0.5, and `"0.4"` is clamped to itself. -/
theorem c8_assessor_range_witness :
    (assess_policy_relevance ["policy".toList] none).1 = 0 ∧
    (assess_policy_relevance ["policy".toList] (some ("maybe".toList))).1 = 1 / 2 ∧
    (assess_policy_relevance ["policy".toList] (some ("0.4".toList))).1 =
      max 0 (min 1 ((2 : ℚ) / 5)) :=
  ⟨(c8_assessor_range _ _).2.1 (by decide) rfl,
   (c8_assessor_range _ _).2.2.1 _ (by decide) rfl
     (by rw [show pyStrip ("maybe".toList) = "maybe".toList by decide]
         simp [parseFloat, readDigits]),
   (c8_assessor_range _ _).2.2.2 _ _ (by decide) rfl
     (by rw [show pyStrip ("0.4".toList) = "0.4".toList by decide]
         simp [parseFloat, readDigits, digitsVal, digitVal, parseExpTail]
         norm_num)⟩

/-!  § C6: Relevance Reranker. -/

/-- Inserting into the descending order keeps the same-score sublist intact:
every element passed over has a strictly greater score. -/
theorem filter_orderedInsert (s : Nat) (a : Nat × List Char)
    (l : List (Nat × List Char)) :
    (List.orderedInsert rdesc a l).filter (fun x => decide (x.1 = s)) =
      if a.1 = s then a :: l.filter (fun x => decide (x.1 = s))
      else l.filter (fun x => decide (x.1 = s)) := by
  induction l with
  | nil =>
    simp only [List.orderedInsert, List.filter]
    split_ifs with h <;> simp [h]
  | cons b t ih =>
    by_cases hr : rdesc a b
    · simp only [List.orderedInsert, if_pos hr, List.filter_cons]
      split_ifs <;> simp_all
    · have hba : a.1 < b.1 := by
        have := hr
        unfold rdesc at this
        omega
      simp only [List.orderedInsert, if_neg hr, List.filter_cons, ih]
      split_ifs <;> simp_all

/-- Python's stable sort keeps ties in original order: for every score the
same-score sublist of the sorted list equals that of the input. -/
theorem filter_insertionSort (s : Nat) (l : List (Nat × List Char)) :
    (List.insertionSort rdesc l).filter (fun x => decide (x.1 = s)) =
      l.filter (fun x => decide (x.1 = s)) := by
  induction l with
  | nil => rfl
  | cons a t ih =>
    rw [List.insertionSort, filter_orderedInsert, ih, List.filter_cons]
    split_ifs <;> simp_all

/-- The chunk components of the scored list are the input chunks in order. -/
theorem scored_chunks_map_snd (resp : Nat → Option (List Char))
    (chunks : List (List Char)) :
    (scored_chunks resp chunks).map Prod.snd = chunks := by
  rw [scored_chunks, List.map_map]
  have : (Prod.snd ∘ fun p : Nat × List Char => (scoreOf (resp p.1), p.2)) =
      Prod.snd := by
    funext p
    rfl
  rw [this, List.enum_map_snd]

/-- C6: the reranker keeps at most `n` candidates, all drawn from the input
list, in non-increasing score order, with equal scores kept in original
retrieval order (stability), and a candidate whose call raised or whose
response holds no integer 1–10 is scored 0. -/
theorem c6_reranker :
    (∀ (resp : Nat → Option (List Char)) (chunks : List (List Char)) (n : Nat),
      (rerank_chunks_list resp chunks n).length ≤ n) ∧
    (∀ (resp : Nat → Option (List Char)) (chunks : List (List Char)) (n : Nat)
        (x : List Char), x ∈ rerank_chunks_list resp chunks n → x ∈ chunks) ∧
    (∀ (resp : Nat → Option (List Char)) (chunks : List (List Char)) (n : Nat),
      List.Sorted rdesc (rerank_scored resp chunks n)) ∧
    (∀ (resp : Nat → Option (List Char)) (chunks : List (List Char)) (s : Nat),
      (List.insertionSort rdesc (scored_chunks resp chunks)).filter
          (fun x => decide (x.1 = s)) =
        (scored_chunks resp chunks).filter (fun x => decide (x.1 = s))) ∧
    scoreOf none = 0 ∧
    (∀ t, findScore false t = none → scoreOf (some t) = 0) := by
  refine ⟨?_, ?_, ?_, fun resp chunks s => filter_insertionSort s _, rfl, ?_⟩
  · intro resp chunks n
    rw [rerank_chunks_list, List.length_map, rerank_scored, List.length_take]
    omega
  · intro resp chunks n x hx
    rw [rerank_chunks_list] at hx
    obtain ⟨pr, hpr, rfl⟩ := List.mem_map.mp hx
    have h2 : pr ∈ List.insertionSort rdesc (scored_chunks resp chunks) :=
      List.take_subset _ _ hpr
    have h3 : pr ∈ scored_chunks resp chunks :=
      (List.perm_insertionSort rdesc _).mem_iff.mp h2
    have h4 := List.mem_map_of_mem Prod.snd h3
    rwa [scored_chunks_map_snd] at h4
  · intro resp chunks n
    exact List.Pairwise.sublist (List.take_sublist n _)
      (List.sorted_insertionSort rdesc (scored_chunks resp chunks))
  · intro t h
    simp [scoreOf, h]

/-- Witness for C6: with scores 3 and 7 over two candidates and `n = 1`, the
higher-scored second candidate is returned and is drawn from the input; an
integer-free response scores 0. -/
theorem c6_reranker_witness :
    "beta".toList ∈ ["alpha".toList, "beta".toList] ∧
    scoreOf (some ("no digits here".toList)) = 0 :=
  ⟨c6_reranker.2.1 (fun i => if i = 0 then some ("3".toList) else some ("7".toList))
      ["alpha".toList, "beta".toList] 1 _ (by decide),
   c6_reranker.2.2.2.2.2 _ (by decide)⟩

/-!  § C5: Context Composer. -/

/-- A non-empty list is not `isEmpty`. -/
theorem isEmpty_false {α : Type} {l : List α} (h : l ≠ []) : l.isEmpty = false := by
  cases l with
  | nil => exact absurd rfl h
  | cons a t => rfl

/-- The head surviving `dropWhile` fails the predicate. -/
theorem dropWhile_head_false {p : Char → Bool} :
    ∀ {l : List Char} {c : Char} {t : List Char},
      l.dropWhile p = c :: t → p c = false := by
  intro l
  induction l with
  | nil => intro c t h; simp at h
  | cons a l' ih =>
    intro c t h
    rw [List.dropWhile_cons] at h
    by_cases hpa : p a = true
    · rw [if_pos hpa] at h
      exact ih h
    · rw [if_neg hpa] at h
      injection h with h1 h2
      subst h1
      simpa using hpa

/-- Dropping a satisfied run twice is the same as dropping it once. -/
theorem dropWhile_idem (p : Char → Bool) (l : List Char) :
    (l.dropWhile p).dropWhile p = l.dropWhile p := by
  cases h : l.dropWhile p with
  | nil => rfl
  | cons c t => simp [List.dropWhile_cons, dropWhile_head_false h]

/-- Right-stripping is idempotent. -/
theorem pyStripR_idem (a : List Char) : pyStripR (pyStripR a) = pyStripR a := by
  simp only [pyStripR, List.reverse_reverse, dropWhile_idem]

/-- Right-stripping removes a (whitespace) suffix of the input. -/
theorem pyStripR_decomp (a : List Char) :
    pyStripR a ++ (a.reverse.takeWhile isPySpace).reverse = a := by
  rw [pyStripR, ← List.reverse_append, List.takeWhile_append_dropWhile, List.reverse_reverse]

/-- Python `strip()` is idempotent: the composer's final trim is stable. -/
theorem pyStrip_idem (l : List Char) : pyStrip (pyStrip l) = pyStrip l := by
  rw [pyStrip, pyStrip]
  cases hm : pyStripR (pyStripL l) with
  | nil => rfl
  | cons c t =>
    have hdec := pyStripR_decomp (pyStripL l)
    rw [hm] at hdec
    have hc : isPySpace c = false := dropWhile_head_false hdec.symm
    have hL : pyStripL (c :: t) = c :: t := by simp [pyStripL, List.dropWhile_cons, hc]
    rw [hL, ← hm, pyStripR_idem, hm]

/-- Left-stripping is a no-op after a block that is already left-stripped. -/
theorem pyStripL_append_left (X Y : List Char) (hX : pyStripL X = X) (hne : X ≠ []) :
    pyStripL (X ++ Y) = X ++ Y := by
  rw [pyStripL, List.dropWhile_append]
  have h1 : X.dropWhile isPySpace = X := hX
  rw [h1, isEmpty_false hne]
  simp

/-- Right-stripping a concatenation whose last block holds a non-space
character only strips inside that last block. -/
theorem pyStripR_append (X s : List Char) (hs : ∃ c ∈ s, isPySpace c = false) :
    pyStripR (X ++ s) = X ++ pyStripR s := by
  rw [pyStripR, List.reverse_append, List.dropWhile_append]
  have hne : (s.reverse.dropWhile isPySpace).isEmpty = false := by
    apply isEmpty_false
    intro h0
    obtain ⟨c, hc, hcp⟩ := hs
    have hall : ∀ x ∈ s.reverse, isPySpace x = true := by
      intro x hx
      exact List.dropWhile_eq_nil_iff.mp h0 x hx
    have := hall c (List.mem_reverse.mpr hc)
    rw [hcp] at this
    cases this
  rw [hne]
  simp only [Bool.false_eq_true, if_false]
  rw [List.reverse_append, List.reverse_reverse]
  rfl

/-- C5: the composer's fixed priority order.  A non-empty FAQ block comes
first under the direct-answer label with a non-empty policy block after it
under the additional-context label; without a FAQ block a non-empty policy
block stands alone under the generic label; the structured-record block is
always appended last; empty blocks contribute no labeled section; the result
is whitespace-trimmed; and three empty blocks give the empty string. -/
theorem c5_composer :
    compose_full_context [] [] [] = [] ∧
    (∀ f p s : List Char, f ≠ [] → p ≠ [] →
      compose_full_context f p s =
        pyStrip (faqLabel ++ f ++ nl2 ++ addLabel ++ p ++ nl2 ++ s)) ∧
    (∀ f s : List Char, f ≠ [] →
      compose_full_context f [] s = pyStrip (faqLabel ++ f ++ nl2 ++ s)) ∧
    (∀ p s : List Char, p ≠ [] →
      compose_full_context [] p s = pyStrip (polLabel ++ p ++ nl2 ++ s)) ∧
    (∀ s : List Char, compose_full_context [] [] s = pyStrip s) ∧
    (∀ f p s : List Char,
      pyStrip (compose_full_context f p s) = compose_full_context f p s) ∧
    (∀ f p s : List Char, f ≠ [] → p ≠ [] → (∃ c ∈ s, isPySpace c = false) →
      compose_full_context f p s =
        faqLabel ++ f ++ (nl2 ++ addLabel) ++ p ++ (nl2 ++ pyStripR s)) := by
  refine ⟨by decide, ?_, ?_, ?_, ?_, ?_, ?_⟩
  · intro f p s hf hp
    cases s <;>
      simp [compose_full_context, isEmpty_false hf, isEmpty_false hp, List.append_assoc]
  · intro f s hf
    cases s <;> simp [compose_full_context, isEmpty_false hf, List.append_assoc]
  · intro p s hp
    cases s <;> simp [compose_full_context, isEmpty_false hp, List.append_assoc]
  · intro s
    cases s <;> simp [compose_full_context]
  · intro f p s
    unfold compose_full_context
    dsimp only
    exact pyStrip_idem _
  · intro f p s hf hp hs
    obtain ⟨c0, hc0, hc0p⟩ := hs
    have hsne : s ≠ [] := by rintro rfl; simp at hc0
    have h1 : compose_full_context f p s =
        pyStrip ((faqLabel ++ f ++ nl2 ++ addLabel ++ p ++ nl2) ++ s) := by
      simp [compose_full_context, isEmpty_false hf, isEmpty_false hp, isEmpty_false hsne,
        List.append_assoc]
    rw [h1, pyStrip]
    have hassoc : (faqLabel ++ f ++ nl2 ++ addLabel ++ p ++ nl2) ++ s =
        faqLabel ++ (f ++ nl2 ++ addLabel ++ p ++ nl2 ++ s) := by
      simp [List.append_assoc]
    have hLnoop : pyStripL ((faqLabel ++ f ++ nl2 ++ addLabel ++ p ++ nl2) ++ s) =
        (faqLabel ++ f ++ nl2 ++ addLabel ++ p ++ nl2) ++ s := by
      rw [hassoc]
      exact pyStripL_append_left faqLabel _ (by decide) (by decide)
    rw [hLnoop, pyStripR_append _ _ ⟨c0, hc0, hc0p⟩]
    simp [List.append_assoc]

/-- Witness for C5 at one concrete block triple: FAQ first, then policy, then
the structured block, with the trailing whitespace trimmed. -/
theorem c5_composer_witness :
    compose_full_context ("F".toList) ("P".toList) ("\n\nS\n".toList) =
      pyStrip (faqLabel ++ "F".toList ++ nl2 ++ addLabel ++ "P".toList ++ nl2 ++
        "\n\nS\n".toList) ∧
    compose_full_context ("F".toList) ("P".toList) ("\n\nS\n".toList) =
      faqLabel ++ "F".toList ++ (nl2 ++ addLabel) ++ "P".toList ++
        (nl2 ++ pyStripR ("\n\nS\n".toList)) :=
  ⟨c5_composer.2.1 _ _ _ (by decide) (by decide),
   c5_composer.2.2.2.2.2.2 _ _ _ (by decide) (by decide) ⟨'S', by decide, by decide⟩⟩
